import Mathlib

/-!
Verification of the WurstSchreiber stroking core
(`WurstSchreiber.roboFontExt/lib/WurstSchreiber.py`).

Points are pairs of real numbers.  Python exceptions
(ZeroDivisionError from `/`, ValueError from `math.acos` / `math.asin`)
are modelled with `Option`: `none` means the corresponding call raises.
The pen traversal is modelled as an explicit state machine producing the
list of operations sent to the output pen; a traversal that raises keeps
the operations emitted before the exception and reports failure.
-/

namespace Wurst

/-- A point: an ordered pair of real coordinates. -/
abbrev Point : Type := ℝ × ℝ

/-- Componentwise sum of two points, `Vector.__add__`. -/
def pAdd (a b : Point) : Point := (a.1 + b.1, a.2 + b.2)

/-- Componentwise difference of two points, `Vector.__sub__`. -/
def pSub (a b : Point) : Point := (a.1 - b.1, a.2 - b.2)

/-- Componentwise scaling of a point by a scalar, `Vector.__mul__`. -/
def pScale (a : Point) (m : ℝ) : Point := (a.1 * m, a.2 * m)

/-- The constant `KAPPA = 4*(math.sqrt(2)-1)/3`. -/
noncomputable def KAPPA : ℝ := 4 * (Real.sqrt 2 - 1) / 3

/-- The constant `CURVE_CORRECTION = 1.25`. -/
def CURVE_CORRECTION : ℝ := 1.25

/-- `distance(pt_a, pt_b)`: Euclidean distance. -/
noncomputable def distance (a b : Point) : ℝ :=
  Real.sqrt ((b.1 - a.1) ^ 2 + (b.2 - a.2) ^ 2)

/-- `slope(pt_a, pt_b)`: the componentwise difference `b - a`. -/
def slope (a b : Point) : ℝ × ℝ := (b.1 - a.1, b.2 - a.2)

/-- `normalise(a, b)`: scale `(a, b)` to unit length, returning `(0, 0)`
for the zero vector. -/
noncomputable def normalise (a b : ℝ) : ℝ × ℝ :=
  let n := Real.sqrt (a * a + b * b)
  if n ≠ 0 then (a / n, b / n) else (0, 0)

/-- `interpolate(pt_a, pt_b, f)`: linear interpolation `a + f*(b-a)`. -/
def interpolate (a b : Point) (f : ℝ) : Point :=
  (a.1 + f * (b.1 - a.1), a.2 + f * (b.2 - a.2))

/-- `offsetPoint(pt_a, pt_n, radius)`: `a + n*radius` componentwise. -/
def offsetPoint (a n : Point) (radius : ℝ) : Point :=
  (a.1 + n.1 * radius, a.2 + n.2 * radius)

/-- `arcControlPoint(pt_a, pt_n, radius)`: `a + n*radius*KAPPA`. -/
noncomputable def arcControlPoint (a n : Point) (radius : ℝ) : Point :=
  (a.1 + n.1 * radius * KAPPA, a.2 + n.2 * radius * KAPPA)

/-- `arcControlPoints(a, an, b, bn, radius)`: both arc control points. -/
noncomputable def arcControlPoints (a an b bn : Point) (radius : ℝ) :
    Point × Point :=
  (arcControlPoint a an radius, arcControlPoint b bn radius)

/-- `calcCubicParameters(pt1, pt2, pt3, pt4)`: polynomial coefficients
`(a, b, c, d)` of the cubic Bézier. -/
def calcCubicParameters (p1 p2 p3 p4 : Point) :
    Point × Point × Point × Point :=
  let d := p1
  let c := pScale (pSub p2 d) 3
  let b := pSub (pScale (pSub p3 p2) 3) c
  let a := pSub (pSub (pSub p4 d) c) b
  (a, b, c, d)

/-- `calcAngle(a, b, c)`: law-of-cosines angle at `b`.  `none` models the
caught `ZeroDivisionError` (denominator `2*bc*ab == 0`) and the caught
`ValueError` from `math.acos` (argument outside `[-1, 1]`). -/
noncomputable def calcAngle (a b c : Point) : Option ℝ :=
  let ab := distance a b
  let bc := distance b c
  let ac := distance a c
  if 2 * bc * ab = 0 then none
  else
    let x := (bc * bc + ab * ab - ac * ac) / (2 * bc * ab)
    if x < -1 ∨ 1 < x then none
    else some (Real.arccos x)

/-- `splitCubicAtLength(p0, p1, p2, p3, length)`: first-order estimate
`length / |velocity at t=0|` of the split parameter.  `none` models the
`ZeroDivisionError` raised when the initial velocity is zero. -/
noncomputable def splitCubicAtLength (p0 p1 p2 p3 : Point) (length : ℝ) :
    Option ℝ :=
  let abcd := calcCubicParameters p0 p1 p2 p3
  let a := abcd.1
  let b := abcd.2.1
  let c := abcd.2.2.1
  let a1 := pScale a 3
  let b1 := pScale b 2
  let c1 := c
  let t : ℝ := 0
  let dv := pAdd (pAdd (pScale a1 (t ^ 2)) (pScale b1 t)) c1
  let velocity := Real.sqrt (dv.1 ^ 2 + dv.2 ^ 2)
  if velocity = 0 then none else some (length / velocity)

/-- `splitLineAt(p0, p1, length)`: the point at `length` along the line
from `p0` to `p1`.  `none` models the `ZeroDivisionError` raised when
`distance(p0, p1) == 0`. -/
noncomputable def splitLineAt (p0 p1 : Point) (length : ℝ) : Option Point :=
  let ldistance := distance p0 p1
  if ldistance = 0 then none
  else
    some (p0.1 + (length / ldistance) * (p1.1 - p0.1),
          p0.2 + (length / ldistance) * (p1.2 - p0.2))

/-- `calcTriangleSSA(angle, side1, side2)`: law-of-sines solve.  `none`
models the uncaught `ZeroDivisionError` (when `sin` of the angle is zero)
and the uncaught `ValueError` from `math.asin` (argument outside
`[-1, 1]`).  The degree/radian conversions of the source are kept. -/
noncomputable def calcTriangleSSA (angle side1 side2 : ℝ) : Option ℝ :=
  let knownAngle := angle * 180 / Real.pi
  let s := Real.sin (knownAngle * Real.pi / 180)
  if s = 0 then none
  else
    let ratio := side1 / s
    if ratio = 0 then some 0
    else
      let temp := side2 / ratio
      if temp < -1 ∨ 1 < temp then none
      else
        let partialAngle := Real.arcsin temp * 180 / Real.pi
        let unknownAngle := 180 - knownAngle - partialAngle
        some (ratio * Real.sin (unknownAngle * Real.pi / 180))

/-- `calcCubicPoints(a, b, c, d)` from `fontTools.misc.bezierTools`:
convert polynomial coefficients back to Bézier control points. -/
noncomputable def calcCubicPoints (a b c d : Point) : Point × Point × Point × Point :=
  let q1 := d
  let q2 := pAdd (pScale c (1 / 3)) d
  let q3 := pAdd (pScale (pAdd b c) (1 / 3)) q2
  let q4 := pAdd (pAdd (pAdd a d) c) b
  (q1, q2, q3, q4)

/-- The middle segment (`curves[1]`) of
`fontTools.misc.bezierTools.splitCubicAtT(p0, p1, p2, p3, t1, t2)`:
the sub-curve between parameters `t1` and `t2`. -/
noncomputable def splitCubicMiddle (p0 p1 p2 p3 : Point) (t1 t2 : ℝ) :
    Point × Point × Point × Point :=
  let abcd := calcCubicParameters p0 p1 p2 p3
  let a := abcd.1
  let b := abcd.2.1
  let c := abcd.2.2.1
  let d := abcd.2.2.2
  let delta := t2 - t1
  let a1 := pScale a (delta ^ 3)
  let b1 := pScale (pAdd (pScale a (3 * t1)) b) (delta ^ 2)
  let c1 := pScale (pAdd (pAdd (pScale b (2 * t1)) c) (pScale a (3 * t1 ^ 2))) delta
  let d1 := pAdd (pAdd (pAdd (pScale a (t1 ^ 3)) (pScale b (t1 ^ 2))) (pScale c t1)) d
  calcCubicPoints a1 b1 c1 d1

/-- Operations the core sends to the output pen. -/
inductive SinkOp : Type where
  | moveTo (p : Point)
  | lineTo (p : Point)
  | curveTo (c1 c2 p : Point)
  | closePath
  | endPath

/-- Operations of the input outline consumed by the pen. -/
inductive OutlineOp : Type where
  | moveTo (p : Point)
  | lineTo (p : Point)
  | curveTo (c1 c2 p : Point)
  | closePath
  | endPath

/-- `WurstPen.drawWurstKnot(p0, p1, radius)`: the operations of the small
closed quadrilateral emitted at `p0`, oriented toward `p1`. -/
noncomputable def drawWurstKnot (p0 p1 : Point) (radius : ℝ) : List SinkOp :=
  let dxy := slope p0 p1
  let n := normalise dxy.1 dxy.2
  let m : Point := (n.2, -n.1)
  let o1 : Point := (-m.1 * 0.1, -m.2 * 0.1)
  let o2 : Point := (n.1 * 0.5 - m.1 * 0.25, n.2 * 0.5 - m.2 * 0.25)
  let o3 : Point := (n.1 * 0.5 + m.1 * 0.25, n.2 * 0.5 + m.2 * 0.25)
  let o4 : Point := (m.1 * 0.1, m.2 * 0.1)
  let a := offsetPoint p0 o1 (-radius * CURVE_CORRECTION)
  let b := offsetPoint p0 o2 (-radius * CURVE_CORRECTION)
  let c := offsetPoint p0 o3 (-radius * CURVE_CORRECTION)
  let d := offsetPoint p0 o4 (-radius * CURVE_CORRECTION)
  [SinkOp.moveTo a, SinkOp.lineTo b, SinkOp.lineTo c, SinkOp.lineTo d,
   SinkOp.closePath]

/-- `WurstPen.drawWurstCap(p, n, m, radius)`: the two `curveTo`
operations of a rounded cap at `p`. -/
noncomputable def drawWurstCap (p n m : Point) (radius : ℝ) : List SinkOp :=
  let a := offsetPoint p m (-radius)
  let d := offsetPoint p n (radius * CURVE_CORRECTION)
  let bc := arcControlPoints a (-n.1, -n.2) d m (-radius * CURVE_CORRECTION)
  let g := offsetPoint p m radius
  let ef := arcControlPoints d m g n (radius * CURVE_CORRECTION)
  [SinkOp.curveTo bc.1 bc.2 d, SinkOp.curveTo ef.1 ef.2 g]

/-- `WurstPen.drawWurstCurveSide(p0, p1, p2, p3, m1, m2, cdistance,
radius)`: the offset-curve `curveTo`.  `none` models the
`ZeroDivisionError` raised when `cdistance == 0`. -/
noncomputable def drawWurstCurveSide (p0 p1 p2 p3 m1 m2 : Point)
    (cdistance radius : ℝ) : Option (List SinkOp) :=
  let a := offsetPoint p0 m1 radius
  let d := offsetPoint p3 m2 (-radius)
  let rdistance := distance a d
  if cdistance = 0 then none
  else
    let rscale := rdistance / cdistance
    let cp1 := interpolate p0 p1 rscale
    let cp2 := interpolate p3 p2 rscale
    let b := offsetPoint cp1 m1 radius
    let c := offsetPoint cp2 m2 (-radius)
    some [SinkOp.curveTo b c d]

/-- `WurstPen.drawWurstLineSide(p, m, radius)`: the straight offset side. -/
def drawWurstLineSide (p m : Point) (radius : ℝ) : List SinkOp :=
  [SinkOp.lineTo (offsetPoint p m radius)]

/-- `WurstPen.drawCurveWurst(p0, p1, p2, p3, radius, margin)`: the
operations emitted for one curve segment, together with a success flag.
`(ops, false)` means the Python code raises after emitting `ops`. -/
noncomputable def drawCurveWurst (p0 p1 p2 p3 : Point) (radius margin : ℝ) :
    List SinkOp × Bool :=
  if distance p0 p3 < radius then ([], true)
  else if p0 = p1 ∨ p2 = p3 then ([], true)
  else
    match splitCubicAtLength p0 p1 p2 p3 (radius + margin) with
    | none => ([], false)
    | some s1 =>
      match splitCubicAtLength p3 p2 p1 p0 radius with
      | none => ([], false)
      | some s2r =>
        let s2 := 1 - s2r
        let mid := splitCubicMiddle p0 p1 p2 p3 s1 s2
        let q0 := mid.1
        let q1 := mid.2.1
        let q2 := mid.2.2.1
        let q3 := mid.2.2.2
        let d1 := slope q1 q0
        let d2 := slope q2 q3
        let n1 := normalise d1.1 d1.2
        let n2 := normalise d2.1 d2.2
        let m1 : Point := (n1.2, -n1.1)
        let m2 : Point := (n2.2, -n2.1)
        let cdistance := distance q0 q3
        let start := offsetPoint q0 m1 (-radius)
        let head := SinkOp.moveTo start :: drawWurstCap q0 n1 m1 radius
        match drawWurstCurveSide q0 q1 q2 q3 m1 m2 cdistance radius with
        | none => (head, false)
        | some side1 =>
          let head2 := head ++ side1 ++ drawWurstCap q3 n2 m2 radius
          match drawWurstCurveSide q3 q2 q1 q0 m2 m1 cdistance radius with
          | none => (head2, false)
          | some side2 => (head2 ++ side2 ++ [SinkOp.closePath], true)

/-- `WurstPen.drawLineWurst(p0, p1, radius, margin)`: the operations
emitted for one line segment, together with a success flag.
`([], false)` means the Python code raises before emitting anything. -/
noncomputable def drawLineWurst (p0 p1 : Point) (radius margin : ℝ) :
    List SinkOp × Bool :=
  if distance p0 p1 < radius then ([], true)
  else
    match splitLineAt p0 p1 (radius + margin) with
    | none => ([], false)
    | some q0 =>
      match splitLineAt p1 q0 radius with
      | none => ([], false)
      | some q1 =>
        let dxy := slope q1 q0
        let n := normalise dxy.1 dxy.2
        let m : Point := (n.2, -n.1)
        let start := offsetPoint q0 m (-radius)
        (SinkOp.moveTo start :: drawWurstCap q0 n m radius
           ++ drawWurstLineSide q1 m radius ++ drawWurstCap q1 n m (-radius)
           ++ [SinkOp.closePath], true)

/-- `WurstPen.calcWurstMargin(pt0, pt1)` with the pen's `_prevPoint` and
`radius` made explicit.  `none` models an exception propagating out of
`calcTriangleSSA`.  The Python truthiness tests are kept: a `None`
previous point or a `None` or `0.0` angle selects margin `0`. -/
noncomputable def calcWurstMargin (prevPoint : Option Point) (radius : ℝ)
    (pt0 pt1 : Point) : Option ℝ :=
  match prevPoint with
  | none => some 0
  | some pp =>
    match calcAngle pp pt0 pt1 with
    | none => some 0
    | some angle =>
      if angle ≠ 0 ∧ angle * 180 / Real.pi ≠ 180 then
        (calcTriangleSSA angle (radius * 2) radius).map
          (fun s => s - radius)
      else some 0

/-- The mutable state of `WurstPen` during a traversal: the `BasePen`
current point and the `_firstPoint` / `_prevPoint` attributes.  A state
with `firstPoint = none` models a pen whose `_moveTo` has never run, so
the `_firstPoint` / `_prevPoint` attributes do not exist yet. -/
structure PenState : Type where
  currentPoint : Option Point
  firstPoint : Option Point
  prevPoint : Option Point

/-- `WurstPen._moveTo(pt1)`. -/
def moveToCore (_st : PenState) (pt1 : Point) : Option PenState × List SinkOp :=
  (some { currentPoint := some pt1, firstPoint := some pt1, prevPoint := none },
   [])

/-- `WurstPen._lineTo(pt1)` (with the `BasePen.lineTo` current-point
update).  The first component is `none` when the Python call raises:
missing attributes, a `None` current point, or an exception from the
margin computation or the stroke. -/
noncomputable def lineToCore (radius : ℝ) (st : PenState) (pt1 : Point) :
    Option PenState × List SinkOp :=
  match st.firstPoint, st.currentPoint with
  | some _, some pt0 =>
    let knotOps :=
      if st.prevPoint = none then drawWurstKnot pt0 pt1 radius else []
    match calcWurstMargin st.prevPoint radius pt0 pt1 with
    | none => (none, knotOps)
    | some margin =>
      let stroke := drawLineWurst pt0 pt1 radius margin
      if stroke.2 then
        (some { currentPoint := some pt1, firstPoint := st.firstPoint,
                prevPoint := some pt0 }, knotOps ++ stroke.1)
      else (none, knotOps ++ stroke.1)
  | _, _ => (none, [])

/-- `WurstPen._curveToOne(pt1, pt2, pt3)` (with the `BasePen.curveTo`
current-point update).  Note the source stores `pt2` — the second
control point — as the new `_prevPoint`. -/
noncomputable def curveToCore (radius : ℝ) (st : PenState)
    (pt1 pt2 pt3 : Point) : Option PenState × List SinkOp :=
  match st.firstPoint, st.currentPoint with
  | some _, some pt0 =>
    let knotOps :=
      if st.prevPoint = none then drawWurstKnot pt0 pt1 radius else []
    match calcWurstMargin st.prevPoint radius pt0 pt1 with
    | none => (none, knotOps)
    | some margin =>
      let stroke := drawCurveWurst pt0 pt1 pt2 pt3 radius margin
      if stroke.2 then
        (some { currentPoint := some pt3, firstPoint := st.firstPoint,
                prevPoint := some pt2 }, knotOps ++ stroke.1)
      else (none, knotOps ++ stroke.1)
  | _, _ => (none, [])

/-- `WurstPen._closePath` (with the `BasePen.closePath` current-point
reset): an implicit line back to `_firstPoint` when the current point
differs from it. -/
noncomputable def closePathCore (radius : ℝ) (st : PenState) :
    Option PenState × List SinkOp :=
  match st.firstPoint with
  | none => (none, [])
  | some fp =>
    if st.firstPoint ≠ st.currentPoint then
      let res := lineToCore radius st fp
      (res.1.map (fun s => { s with currentPoint := none }), res.2)
    else (some { st with currentPoint := none }, [])

/-- `WurstPen._endPath` (with the `BasePen.endPath` current-point
reset): a knot at the open end when a previous point exists. -/
noncomputable def endPathCore (radius : ℝ) (st : PenState) :
    Option PenState × List SinkOp :=
  match st.firstPoint with
  | none => (none, [])
  | some _ =>
    match st.prevPoint with
    | some pp =>
      match st.currentPoint with
      | some c =>
        (some { currentPoint := none, firstPoint := st.firstPoint,
                prevPoint := st.currentPoint }, drawWurstKnot c pp radius)
      | none => (none, [])
    | none =>
      (some { currentPoint := none, firstPoint := st.firstPoint,
              prevPoint := st.currentPoint }, [])

/-- One input operation dispatched to the pen. -/
noncomputable def penStep (radius : ℝ) (st : PenState) :
    OutlineOp → Option PenState × List SinkOp
  | OutlineOp.moveTo p => moveToCore st p
  | OutlineOp.lineTo p => lineToCore radius st p
  | OutlineOp.curveTo c1 c2 p => curveToCore radius st c1 c2 p
  | OutlineOp.closePath => closePathCore radius st
  | OutlineOp.endPath => endPathCore radius st

/-- Run the pen over a list of outline operations.  A raising step stops
the traversal, keeping the operations emitted so far. -/
noncomputable def penRun (radius : ℝ) (st : PenState) :
    List OutlineOp → Option PenState × List SinkOp
  | [] => (some st, [])
  | op :: rest =>
    match penStep radius st op with
    | (none, ops) => (none, ops)
    | (some st1, ops) =>
      let res := penRun radius st1 rest
      (res.1, ops ++ res.2)

/-- `drawWurst(glyph, outPen, radius)`: traverse the outline with a
fresh pen.  Returns the operations sent to the output pen and `true`
when the traversal completes without raising. -/
noncomputable def drawWurst (ops : List OutlineOp) (radius : ℝ) :
    List SinkOp × Bool :=
  let res := penRun radius { currentPoint := none, firstPoint := none,
                             prevPoint := none } ops
  (res.2, res.1.isSome)

/-- Split an emitted operation list into the closed contours it contains
(each ending with its `closePath`) and the trailing operations of an
unfinished contour. -/
def contourSplit : List SinkOp → List (List SinkOp) × List SinkOp
  | [] => ([], [])
  | SinkOp.closePath :: rest =>
    let res := contourSplit rest
    ([SinkOp.closePath] :: res.1, res.2)
  | op :: rest =>
    let res := contourSplit rest
    match res.1 with
    | [] => ([], op :: res.2)
    | c :: cs => ((op :: c) :: cs, res.2)

/-- The complete contours of an emitted operation list. -/
def contoursOf (ops : List SinkOp) : List (List SinkOp) :=
  (contourSplit ops).1

/-- Whether an operation is a `curveTo`. -/
def isCurveOp : SinkOp → Bool
  | SinkOp.curveTo _ _ _ => true
  | _ => false

/-- Whether an operation is a `moveTo`. -/
def isMoveOp : SinkOp → Bool
  | SinkOp.moveTo _ => true
  | _ => false

/-- Whether an operation is an `endPath`. -/
def isEndPathOp : SinkOp → Bool
  | SinkOp.endPath => true
  | _ => false

/-- A capsule contour contains `curveTo` operations (its rounded caps);
a knot contour is built from `moveTo` / `lineTo` / `closePath` only. -/
def isCapsuleContour (c : List SinkOp) : Bool := c.any isCurveOp

/-- The knot contours of an emitted operation list. -/
def knotContours (ops : List SinkOp) : List (List SinkOp) :=
  (contoursOf ops).filter (fun c => !isCapsuleContour c)

/-- The capsule contours of an emitted operation list. -/
def capsuleContours (ops : List SinkOp) : List (List SinkOp) :=
  (contoursOf ops).filter isCapsuleContour

/-- `true` when the operation list contains no `endPath`. -/
def noEndPath (ops : List SinkOp) : Bool := ops.all (fun op => !isEndPathOp op)

/-- One step of the contour-closedness scan.  The state is `none` once a
`moveTo` arrives while a contour is still open, otherwise `some b` with
`b` recording whether a contour is currently open. -/
def closeStep : Option Bool → SinkOp → Option Bool
  | none, _ => none
  | some true, SinkOp.moveTo _ => none
  | some false, SinkOp.moveTo _ => some true
  | some _, SinkOp.closePath => some false
  | some b, _ => some b

/-- Scan an operation list for contour closedness. -/
def closeScan (ops : List SinkOp) (st : Option Bool) : Option Bool :=
  ops.foldl closeStep st

/-- Every `moveTo` in the list is followed by a `closePath` before any
further `moveTo`, and no contour is left open at the end. -/
def closedContours (ops : List SinkOp) : Prop :=
  closeScan ops (some false) = some false

theorem closeScan_append (xs ys : List SinkOp) (st : Option Bool) :
    closeScan (xs ++ ys) st = closeScan ys (closeScan xs st) := by
  simp [closeScan, List.foldl_append]

theorem distance_eval {a b : Point} {v : ℝ} (hv : 0 ≤ v)
    (h : (b.1 - a.1) ^ 2 + (b.2 - a.2) ^ 2 = v ^ 2) :
    distance a b = v := by
  rw [distance, h, Real.sqrt_sq hv]

theorem distance_comm (a b : Point) : distance a b = distance b a := by
  rw [distance, distance,
    show (b.1 - a.1) ^ 2 + (b.2 - a.2) ^ 2
       = (a.1 - b.1) ^ 2 + (a.2 - b.2) ^ 2 from by ring]

/-- C9: `calcAngle` is invariant under swapping the two outer points:
`calcAngle(a, b, c) = calcAngle(c, b, a)`, whether the result is a
defined angle or the undefined sentinel. -/
theorem c9_calcAngle_symmetric (a b c : Point) :
    calcAngle a b c = calcAngle c b a := by
  simp only [calcAngle]
  rw [distance_comm c b, distance_comm b a, distance_comm c a]
  ring_nf

/-- C3 (corrected): when `sin(angle) = 0` the source raises a
`ZeroDivisionError` in `calcTriangleSSA` instead of returning 0; the
`return 0` guard fires when the ratio `side1 / sin(angle)` is zero, i.e.
when `side1 = 0` with `sin(angle) ≠ 0`. -/
theorem c3_ssa_zero_sin_raises (angle side1 side2 : ℝ) :
    (Real.sin angle = 0 → calcTriangleSSA angle side1 side2 = none) ∧
    (Real.sin angle ≠ 0 → calcTriangleSSA angle 0 side2 = some 0) := by
  have key : angle * 180 / Real.pi * Real.pi / 180 = angle := by
    field_simp
  constructor
  · intro h
    simp [calcTriangleSSA, key, h]
  · intro h
    simp [calcTriangleSSA, key, h]

theorem c3_witness :
    calcTriangleSSA 0 2 1 = none ∧
    calcTriangleSSA (Real.pi / 2) 0 5 = some 0 := by
  refine ⟨(c3_ssa_zero_sin_raises 0 2 1).1 Real.sin_zero,
          (c3_ssa_zero_sin_raises (Real.pi / 2) 0 5).2 ?_⟩
  rw [Real.sin_pi_div_two]
  norm_num

/-- C3 counterexample: at `angle = 0` we have `sin(angle) = 0`, yet
`calcTriangleSSA 0 1 1` raises (models as `none`) instead of
returning 0. -/
theorem c3_counterexample :
    Real.sin 0 = 0 ∧ calcTriangleSSA 0 1 1 ≠ some 0 := by
  refine ⟨Real.sin_zero, ?_⟩
  simp [calcTriangleSSA]

/-- C4: a line segment with `distance(p0, p1) < radius` and a curve
segment with `distance(p0, p3) < radius` are skipped: the stroker emits
nothing at all, for any margin. -/
theorem c4_short_segments_skipped (radius margin : ℝ) :
    (∀ p0 p1 : Point, distance p0 p1 < radius →
       drawLineWurst p0 p1 radius margin = ([], true)) ∧
    (∀ p0 p1 p2 p3 : Point, distance p0 p3 < radius →
       drawCurveWurst p0 p1 p2 p3 radius margin = ([], true)) := by
  constructor
  · intro p0 p1 h
    simp [drawLineWurst, h]
  · intro p0 p1 p2 p3 h
    simp [drawCurveWurst, h]

theorem c4_witness :
    distance (0, 0) (0, 0) < 1 ∧
    drawLineWurst (0, 0) (0, 0) 1 0 = ([], true) ∧
    drawCurveWurst (0, 0) (3, 4) (5, 6) (0, 0) 1 0 = ([], true) := by
  have h : distance ((0 : ℝ), (0 : ℝ)) ((0 : ℝ), (0 : ℝ)) < 1 := by
    rw [distance_eval le_rfl (by norm_num)]
    norm_num
  exact ⟨h, (c4_short_segments_skipped 1 0).1 _ _ h,
         (c4_short_segments_skipped 1 0).2 _ _ _ _ h⟩

/-- C5 (corrected): the margin is `calcTriangleSSA(angle, 2·radius,
radius) - radius` only when the angle is defined, **nonzero** (a `0.0`
angle is falsy in the source's `if angle and ...` test) and not 180°;
for a missing previous point, an undefined angle, a zero angle or a
straight angle the margin is 0. -/
theorem c5_margin_formula (prev : Option Point) (radius : ℝ)
    (pt0 pt1 : Point) :
    (prev = none → calcWurstMargin prev radius pt0 pt1 = some 0) ∧
    (∀ pp, prev = some pp → calcAngle pp pt0 pt1 = none →
       calcWurstMargin prev radius pt0 pt1 = some 0) ∧
    (∀ pp angle, prev = some pp → calcAngle pp pt0 pt1 = some angle →
       (angle = 0 ∨ angle * 180 / Real.pi = 180) →
       calcWurstMargin prev radius pt0 pt1 = some 0) ∧
    (∀ pp angle, prev = some pp → calcAngle pp pt0 pt1 = some angle →
       angle ≠ 0 → angle * 180 / Real.pi ≠ 180 →
       calcWurstMargin prev radius pt0 pt1 =
         (calcTriangleSSA angle (radius * 2) radius).map
           (fun s => s - radius)) := by
  refine ⟨?_, ?_, ?_, ?_⟩
  · intro h
    subst h
    simp [calcWurstMargin]
  · intro pp h ha
    subst h
    simp [calcWurstMargin, ha]
  · intro pp angle h ha hza
    subst h
    rcases hza with hz | hs
    · subst hz
      simp [calcWurstMargin, ha]
    · simp [calcWurstMargin, ha, hs]
  · intro pp angle h ha hz hs
    subst h
    simp [calcWurstMargin, ha, hz, hs]

theorem c5_witness :
    calcAngle (0, 1) (0, 0) (1, 0) = some (Real.pi / 2) ∧
    calcWurstMargin (some (0, 1)) 1 (0, 0) (1, 0) =
      (calcTriangleSSA (Real.pi / 2) (1 * 2) 1).map (fun s => s - 1) := by
  have d1 : distance ((0 : ℝ), (1 : ℝ)) ((0 : ℝ), (0 : ℝ)) = 1 :=
    distance_eval (by norm_num) (by norm_num)
  have d2 : distance ((0 : ℝ), (0 : ℝ)) ((1 : ℝ), (0 : ℝ)) = 1 :=
    distance_eval (by norm_num) (by norm_num)
  have d3 : distance ((0 : ℝ), (1 : ℝ)) ((1 : ℝ), (0 : ℝ)) = Real.sqrt 2 :=
    distance_eval (Real.sqrt_nonneg 2)
      (by rw [Real.sq_sqrt (by norm_num : (0 : ℝ) ≤ 2)]; norm_num)
  have ha : calcAngle (0, 1) (0, 0) (1, 0) = some (Real.pi / 2) := by
    simp only [calcAngle, d1, d2, d3]
    rw [show Real.sqrt 2 * Real.sqrt 2 = 2 from
      Real.mul_self_sqrt (by norm_num)]
    norm_num [Real.arccos_zero]
  have hz : Real.pi / 2 ≠ 0 := by
    have := Real.pi_pos
    positivity
  have hs : Real.pi / 2 * 180 / Real.pi ≠ 180 := by
    rw [show Real.pi / 2 * 180 / Real.pi = 90 from by
      field_simp
      ring]
    norm_num
  exact ⟨ha, (c5_margin_formula (some (0, 1)) 1 (0, 0) (1, 0)).2.2.2
    (0, 1) (Real.pi / 2) rfl ha hz hs⟩

/-- C5 counterexample: with previous point `(1, 0)`, vertex `(0, 0)` and
next point `(2, 0)` the joint angle is defined and equal to `0` (not
180°), yet the margin is `0` and not `calcTriangleSSA(0, 2·radius,
radius) - radius` (which raises). -/
theorem c5_counterexample :
    calcAngle (1, 0) (0, 0) (2, 0) = some 0 ∧
    (0 : ℝ) * 180 / Real.pi ≠ 180 ∧
    calcWurstMargin (some (1, 0)) 1 (0, 0) (2, 0) = some 0 ∧
    calcWurstMargin (some (1, 0)) 1 (0, 0) (2, 0) ≠
      (calcTriangleSSA 0 (1 * 2) 1).map (fun s => s - 1) := by
  have d1 : distance ((1 : ℝ), (0 : ℝ)) ((0 : ℝ), (0 : ℝ)) = 1 :=
    distance_eval (by norm_num) (by norm_num)
  have d2 : distance ((0 : ℝ), (0 : ℝ)) ((2 : ℝ), (0 : ℝ)) = 2 :=
    distance_eval (by norm_num) (by norm_num)
  have d3 : distance ((1 : ℝ), (0 : ℝ)) ((2 : ℝ), (0 : ℝ)) = 1 :=
    distance_eval (by norm_num) (by norm_num)
  have ha : calcAngle (1, 0) (0, 0) (2, 0) = some 0 := by
    simp only [calcAngle, d1, d2, d3]
    norm_num [Real.arccos_one]
  have hm : calcWurstMargin (some (1, 0)) 1 (0, 0) (2, 0) = some 0 := by
    simp only [calcWurstMargin, ha]
    norm_num
  have hssa : calcTriangleSSA 0 (1 * 2) 1 = none := by
    simp [calcTriangleSSA]
  refine ⟨ha, ?_, hm, ?_⟩
  · simp
  · rw [hm, hssa]
    simp

/-- C6 (corrected): the joint angle feeds `calcAngle` with the stored
previous point, the shared vertex and the current segment's first
interior point (endpoint for a line, first control point for a curve);
the stored previous point after a line segment is that line's starting
point, but after a curve segment it is the curve's **second control
point** `pt2`, not the curve's starting point. -/
theorem c6_angle_points_and_prev_update (radius : ℝ) (st : PenState)
    (pt1 pt2 pt3 : Point) (pt0 fp : Point)
    (hf : st.firstPoint = some fp) (hc : st.currentPoint = some pt0) :
    (∀ st1, (lineToCore radius st pt1).1 = some st1 →
       st1.prevPoint = some pt0) ∧
    (∀ st1, (curveToCore radius st pt1 pt2 pt3).1 = some st1 →
       st1.prevPoint = some pt2) ∧
    (lineToCore radius st pt1).2 =
      (if st.prevPoint = none then drawWurstKnot pt0 pt1 radius else []) ++
      (match calcWurstMargin st.prevPoint radius pt0 pt1 with
       | none => []
       | some margin => (drawLineWurst pt0 pt1 radius margin).1) ∧
    (curveToCore radius st pt1 pt2 pt3).2 =
      (if st.prevPoint = none then drawWurstKnot pt0 pt1 radius else []) ++
      (match calcWurstMargin st.prevPoint radius pt0 pt1 with
       | none => []
       | some margin => (drawCurveWurst pt0 pt1 pt2 pt3 radius margin).1) := by
  obtain ⟨cur, first, prev⟩ := st
  simp only at hf hc
  subst hf
  subst hc
  refine ⟨?_, ?_, ?_, ?_⟩
  · intro st1 h
    simp only [lineToCore] at h
    rcases hm : calcWurstMargin prev radius pt0 pt1 with _ | margin <;>
      rw [hm] at h
    · simp at h
    · simp only at h
      split at h
      · simp only [Prod.fst] at h
        rw [← Option.some_inj.mp h]
      · exact absurd h (by simp)
  · intro st1 h
    simp only [curveToCore] at h
    rcases hm : calcWurstMargin prev radius pt0 pt1 with _ | margin <;>
      rw [hm] at h
    · simp at h
    · simp only at h
      split at h
      · simp only [Prod.fst] at h
        rw [← Option.some_inj.mp h]
      · exact absurd h (by simp)
  · simp only [lineToCore]
    rcases hm : calcWurstMargin prev radius pt0 pt1 with _ | margin
    · simp
    · simp only [Option.some.injEq]
      split <;> rfl
  · simp only [curveToCore]
    rcases hm : calcWurstMargin prev radius pt0 pt1 with _ | margin
    · simp
    · simp only [Option.some.injEq]
      split <;> rfl

theorem c6_witness :
    ((lineToCore 2 (PenState.mk (some (0, 0)) (some (0, 0)) none)
        (1, 0)).1.map PenState.prevPoint) = some (some (0, 0)) := by
  have hd : distance ((0 : ℝ), (0 : ℝ)) ((1 : ℝ), (0 : ℝ)) < 2 := by
    rw [distance_eval (by norm_num : (0 : ℝ) ≤ 1) (by norm_num)]
    norm_num
  have heval : (lineToCore 2 (PenState.mk (some (0, 0)) (some (0, 0)) none)
      (1, 0)).1 =
      some (PenState.mk (some (1, 0)) (some (0, 0)) (some (0, 0))) := by
    simp only [lineToCore, calcWurstMargin, drawLineWurst, hd]
    simp
  have hp := (c6_angle_points_and_prev_update 2
    (PenState.mk (some (0, 0)) (some (0, 0)) none) (1, 0) (0, 0) (0, 0)
    (0, 0) (0, 0) rfl rfl).1 _ heval
  calc (lineToCore 2 (PenState.mk (some (0, 0)) (some (0, 0)) none)
        (1, 0)).1.map PenState.prevPoint
      = (some (PenState.mk (some (1, 0)) (some (0, 0))
          (some (0, 0)))).map PenState.prevPoint := by rw [heval]
    _ = some (some (0, 0)) := congrArg some hp

/-- C6 counterexample: after a curve segment the stored previous point
is the curve's second control point `(7, 9)`, not the curve's starting
point `(0, 0)`. -/
theorem c6_counterexample :
    ((curveToCore 2 (PenState.mk (some (0, 0)) (some (0, 0)) none)
        (5, 5) (7, 9) (1, 0)).1.map PenState.prevPoint) =
      some (some (7, 9)) ∧ some ((7, 9) : Point) ≠ some ((0, 0) : Point) := by
  have hd : distance ((0 : ℝ), (0 : ℝ)) ((1 : ℝ), (0 : ℝ)) < 2 := by
    rw [distance_eval (by norm_num : (0 : ℝ) ≤ 1) (by norm_num)]
    norm_num
  constructor
  · simp only [curveToCore, calcWurstMargin, drawCurveWurst, hd]
    simp
  · simp [Prod.ext_iff]

/-- C1 (corrected): for the outline `MoveTo(p); EndPath` the pen emits
nothing at all — `_endPath` draws a knot only when a previous segment
exists, so an isolated point produces no knot contour and no capsule
contour. -/
theorem c1_isolated_point_emits_nothing (p : Point) (radius : ℝ) :
    drawWurst [OutlineOp.moveTo p, OutlineOp.endPath] radius = ([], true) := by
  simp [drawWurst, penRun, penStep, moveToCore, endPathCore]

/-- C1 counterexample: the claimed single knot contour does not exist —
the traversal of `MoveTo((0,0)); EndPath` emits zero contours. -/
theorem c1_counterexample :
    ¬ ((knotContours (drawWurst [OutlineOp.moveTo (0, 0),
          OutlineOp.endPath] 1).1).length = 1 ∧
       (capsuleContours (drawWurst [OutlineOp.moveTo (0, 0),
          OutlineOp.endPath] 1).1).length = 0) := by
  intro h
  have heval : drawWurst [OutlineOp.moveTo (0, 0), OutlineOp.endPath] 1 =
      ([], true) := by
    simp [drawWurst, penRun, penStep, moveToCore, endPathCore]
  rw [heval] at h
  simp [knotContours, contoursOf, contourSplit] at h

theorem splitCubicAtLength_ne_none (p0 p1 p2 p3 : Point) (hne : p0 ≠ p1)
    (len : ℝ) : splitCubicAtLength p0 p1 p2 p3 len ≠ none := by
  have hcomp : p1.1 - p0.1 ≠ 0 ∨ p1.2 - p0.2 ≠ 0 := by
    by_contra hc
    push_neg at hc
    exact hne (Prod.ext_iff.mpr ⟨by linarith [hc.1], by linarith [hc.2]⟩)
  simp only [splitCubicAtLength, calcCubicParameters, pAdd, pSub, pScale]
  split
  · rename_i hcond
    exfalso
    rw [Real.sqrt_eq_zero'] at hcond
    rcases hcomp with h1 | h1
    · nlinarith [mul_self_pos.mpr h1, mul_self_nonneg (p1.2 - p0.2)]
    · nlinarith [mul_self_pos.mpr h1, mul_self_nonneg (p1.1 - p0.1)]
  · simp

/-- C10 (corrected): with `radius > 0` the guarded divisors are indeed
nonzero — the first `splitLineAt` call divides by `distance(p0, p1) ≥
radius > 0`, and both `splitCubicAtLength` calls divide by the nonzero
initial velocities `3*(p1-p0)` and `3*(p2-p3)`, so `drawCurveWurst`
never raises before emitting — but the claim's headline is false: the
**second** `splitLineAt` call of `drawLineWurst` divides by
`distance(p1, trimmed-p0)`, which is zero when `margin =
distance(p0, p1) - radius`. -/
theorem c10_guarded_divisors (radius : ℝ) (h : 0 < radius) :
    (∀ p0 p1 : Point, ¬ distance p0 p1 < radius →
       ∀ len, splitLineAt p0 p1 len ≠ none) ∧
    (∀ p0 p1 p2 p3 : Point, p0 ≠ p1 →
       ∀ len, splitCubicAtLength p0 p1 p2 p3 len ≠ none) ∧
    (∀ p0 p1 p2 p3 : Point, p2 ≠ p3 →
       ∀ len, splitCubicAtLength p3 p2 p1 p0 len ≠ none) ∧
    (∀ p0 p1 p2 p3 : Point, ∀ margin,
       drawCurveWurst p0 p1 p2 p3 radius margin ≠ ([], false)) := by
  refine ⟨?_, ?_, ?_, ?_⟩
  · intro p0 p1 hge len
    have hne : distance p0 p1 ≠ 0 := fun h0 => hge (by rw [h0]; exact h)
    simp [splitLineAt, hne]
  · intro p0 p1 p2 p3 hne len
    exact splitCubicAtLength_ne_none p0 p1 p2 p3 hne len
  · intro p0 p1 p2 p3 hne len
    exact splitCubicAtLength_ne_none p3 p2 p1 p0 (Ne.symm hne) len
  · intro p0 p1 p2 p3 margin heq
    by_cases hd : distance p0 p3 < radius
    · rw [drawCurveWurst, if_pos hd] at heq
      simp at heq
    · by_cases hp : p0 = p1 ∨ p2 = p3
      · rw [drawCurveWurst, if_neg hd, if_pos hp] at heq
        simp at heq
      · have hp1 : p0 ≠ p1 := fun hq => hp (Or.inl hq)
        have hp2 : p2 ≠ p3 := fun hq => hp (Or.inr hq)
        rcases hs1 : splitCubicAtLength p0 p1 p2 p3 (radius + margin)
          with _ | s1
        · exact splitCubicAtLength_ne_none p0 p1 p2 p3 hp1 _ hs1
        rcases hs2 : splitCubicAtLength p3 p2 p1 p0 radius with _ | s2
        · exact splitCubicAtLength_ne_none p3 p2 p1 p0 (Ne.symm hp2) _ hs2
        simp only [drawCurveWurst, if_neg hd, if_neg hp, hs1, hs2] at heq
        split at heq
        · simp at heq
        · split at heq <;> simp at heq

theorem c10_witness :
    splitLineAt ((0 : ℝ), (0 : ℝ)) (1, 0) 5 ≠ none ∧
    splitCubicAtLength ((0 : ℝ), (0 : ℝ)) (1, 0) (4, 4) (5, 5) 7 ≠ none := by
  have hd : distance ((0 : ℝ), (0 : ℝ)) ((1 : ℝ), (0 : ℝ)) = 1 :=
    distance_eval (by norm_num) (by norm_num)
  have h := c10_guarded_divisors 1 (by norm_num)
  refine ⟨h.1 (0, 0) (1, 0) ?_ 5, h.2.1 (0, 0) (1, 0) (4, 4) (5, 5) ?_ 7⟩
  · rw [hd]
    norm_num
  · intro hq
    rw [Prod.ext_iff] at hq
    norm_num at hq

/-- C10 counterexample: with `radius = 1 > 0` and `margin = 1 =
distance(p0, p1) - radius`, the first `splitLineAt` trims `(0,0)-(2,0)`
all the way to `(2,0)`, and the second `splitLineAt` call divides by
`distance((2,0), (2,0)) = 0`: a division by zero is reached inside
`drawLineWurst`. -/
theorem c10_counterexample :
    splitLineAt ((2 : ℝ), (0 : ℝ)) (2, 0) 1 = none ∧
    drawLineWurst (0, 0) (2, 0) 1 1 = ([], false) := by
  have hz : distance ((2 : ℝ), (0 : ℝ)) ((2 : ℝ), (0 : ℝ)) = 0 :=
    distance_eval le_rfl (by norm_num)
  have h1 : splitLineAt ((2 : ℝ), (0 : ℝ)) (2, 0) 1 = none := by
    simp [splitLineAt, hz]
  have hd : distance ((0 : ℝ), (0 : ℝ)) ((2 : ℝ), (0 : ℝ)) = 2 :=
    distance_eval (by norm_num) (by norm_num)
  have hq0 : splitLineAt ((0 : ℝ), (0 : ℝ)) (2, 0) (1 + 1) = some (2, 0) := by
    simp only [splitLineAt, hd]
    norm_num
  refine ⟨h1, ?_⟩
  rw [drawLineWurst, if_neg (by rw [hd]; norm_num)]
  simp only [hq0, h1]

/-- C7 (corrected): neither `drawWurst` nor `WurstPen.__init__` checks
the radius: for every negative radius the traversal of the outline
`MoveTo((0,0)); LineTo((1,0))` proceeds, completes without failure and
emits contour operations. -/
theorem c7_no_negative_radius_check (radius : ℝ) (h : radius < 0) :
    (drawWurst [OutlineOp.moveTo (0, 0), OutlineOp.lineTo (1, 0)]
      radius).2 = true ∧
    (drawWurst [OutlineOp.moveTo (0, 0), OutlineOp.lineTo (1, 0)]
      radius).1 ≠ [] := by
  have hd1 : distance ((0 : ℝ), (0 : ℝ)) ((1 : ℝ), (0 : ℝ)) = 1 :=
    distance_eval (by norm_num) (by norm_num)
  have hsplit1 : splitLineAt ((0 : ℝ), (0 : ℝ)) (1, 0) (radius + 0) =
      some (radius, 0) := by
    simp only [splitLineAt, hd1]
    norm_num
  have hd2 : distance ((1 : ℝ), (0 : ℝ)) (radius, 0) = 1 - radius := by
    apply distance_eval (by linarith)
    simp only
    ring
  have hstroke : ∃ s rest, drawLineWurst ((0 : ℝ), (0 : ℝ)) (1, 0) radius 0
      = (SinkOp.moveTo s :: rest, true) := by
    rw [drawLineWurst, if_neg (by rw [hd1]; linarith)]
    have hq1 : ∃ q1, splitLineAt ((1 : ℝ), (0 : ℝ)) (radius, 0) radius =
        some q1 := by
      rw [splitLineAt]
      simp only [hd2]
      rw [if_neg (by intro hz; linarith)]
      exact ⟨_, rfl⟩
    obtain ⟨q1, hq1⟩ := hq1
    simp only [hsplit1, hq1]
    exact ⟨_, _, rfl⟩
  obtain ⟨s, rest, hstroke⟩ := hstroke
  have hrun : drawWurst [OutlineOp.moveTo (0, 0), OutlineOp.lineTo (1, 0)]
      radius =
      (drawWurstKnot (0, 0) (1, 0) radius ++ (SinkOp.moveTo s :: rest),
       true) := by
    simp only [drawWurst, penRun, penStep, moveToCore, lineToCore,
      calcWurstMargin, hstroke]
    simp
  rw [hrun]
  refine ⟨rfl, ?_⟩
  simp

/-- C7 counterexample: with radius `-1` the traversal of
`MoveTo((0,0)); LineTo((1,0))` is not rejected: it completes without any
failure and emits contour operations. -/
theorem c7_counterexample :
    (drawWurst [OutlineOp.moveTo (0, 0), OutlineOp.lineTo (1, 0)]
      (-1)).2 = true ∧
    (drawWurst [OutlineOp.moveTo (0, 0), OutlineOp.lineTo (1, 0)]
      (-1)).1 ≠ [] := by
  have hd1 : distance ((0 : ℝ), (0 : ℝ)) ((1 : ℝ), (0 : ℝ)) = 1 :=
    distance_eval (by norm_num) (by norm_num)
  have hsplit1 : splitLineAt ((0 : ℝ), (0 : ℝ)) (1, 0) (-1 + 0) =
      some (-1, 0) := by
    simp only [splitLineAt, hd1]
    norm_num
  have hd2 : distance ((1 : ℝ), (0 : ℝ)) (-1, 0) = 2 :=
    distance_eval (by norm_num) (by norm_num)
  have hstroke : ∃ s rest, drawLineWurst ((0 : ℝ), (0 : ℝ)) (1, 0) (-1) 0
      = (SinkOp.moveTo s :: rest, true) := by
    rw [drawLineWurst, if_neg (by rw [hd1]; norm_num)]
    have hq1 : ∃ q1, splitLineAt ((1 : ℝ), (0 : ℝ)) (-1, 0) (-1) =
        some q1 := by
      rw [splitLineAt]
      simp only [hd2]
      rw [if_neg (by norm_num)]
      exact ⟨_, rfl⟩
    obtain ⟨q1, hq1⟩ := hq1
    simp only [hsplit1, hq1]
    exact ⟨_, _, rfl⟩
  obtain ⟨s, rest, hstroke⟩ := hstroke
  have hrun : drawWurst [OutlineOp.moveTo (0, 0), OutlineOp.lineTo (1, 0)]
      (-1) =
      (drawWurstKnot (0, 0) (1, 0) (-1) ++ (SinkOp.moveTo s :: rest),
       true) := by
    simp only [drawWurst, penRun, penStep, moveToCore, lineToCore,
      calcWurstMargin, hstroke]
    simp
  rw [hrun]
  refine ⟨rfl, ?_⟩
  simp

theorem c7_witness :
    (drawWurst [OutlineOp.moveTo (0, 0), OutlineOp.lineTo (1, 0)]
      (-2)).2 = true ∧
    (drawWurst [OutlineOp.moveTo (0, 0), OutlineOp.lineTo (1, 0)]
      (-2)).1 ≠ [] :=
  c7_no_negative_radius_check (-2) (by norm_num)

theorem noEndPath_append (xs ys : List SinkOp) :
    noEndPath (xs ++ ys) = (noEndPath xs && noEndPath ys) := by
  simp [noEndPath, List.all_append]

theorem noEndPath_knot (p0 p1 : Point) (r : ℝ) :
    noEndPath (drawWurstKnot p0 p1 r) = true := by
  simp [drawWurstKnot, noEndPath, isEndPathOp]

theorem closeScan_knot (p0 p1 : Point) (r : ℝ) :
    closeScan (drawWurstKnot p0 p1 r) (some false) = some false := by
  simp [drawWurstKnot, closeScan, closeStep]

theorem noEndPath_cap (p n m : Point) (r : ℝ) :
    noEndPath (drawWurstCap p n m r) = true := by
  simp [drawWurstCap, noEndPath, isEndPathOp]

theorem closeScan_cap (p n m : Point) (r : ℝ) (st : Option Bool) :
    closeScan (drawWurstCap p n m r) st = st := by
  rcases st with _ | b
  · simp [drawWurstCap, closeScan, closeStep]
  · cases b <;> simp [drawWurstCap, closeScan, closeStep]

theorem noEndPath_lineSide (p m : Point) (r : ℝ) :
    noEndPath (drawWurstLineSide p m r) = true := by
  simp [drawWurstLineSide, noEndPath, isEndPathOp]

theorem closeScan_lineSide (p m : Point) (r : ℝ) (st : Option Bool) :
    closeScan (drawWurstLineSide p m r) st = st := by
  rcases st with _ | b
  · simp [drawWurstLineSide, closeScan, closeStep]
  · cases b <;> simp [drawWurstLineSide, closeScan, closeStep]

theorem curveSide_invariants (p0 p1 p2 p3 m1 m2 : Point) (cd r : ℝ)
    (ops : List SinkOp)
    (h : drawWurstCurveSide p0 p1 p2 p3 m1 m2 cd r = some ops) :
    noEndPath ops = true ∧ ∀ st, closeScan ops st = st := by
  rw [drawWurstCurveSide] at h
  split at h
  · exact absurd h (by simp)
  · rw [Option.some_inj] at h
    subst h
    refine ⟨by simp [noEndPath, isEndPathOp], ?_⟩
    intro st
    rcases st with _ | b
    · simp [closeScan, closeStep]
    · cases b <;> simp [closeScan, closeStep]

theorem noEndPath_nil : noEndPath [] = true := rfl

theorem noEndPath_cons (x : SinkOp) (l : List SinkOp) :
    noEndPath (x :: l) = (!isEndPathOp x && noEndPath l) := by
  simp [noEndPath]

theorem closeScan_nil (st : Option Bool) : closeScan [] st = st := rfl

theorem closeScan_cons (x : SinkOp) (l : List SinkOp) (st : Option Bool) :
    closeScan (x :: l) st = closeScan l (closeStep st x) := rfl

theorem drawLineWurst_invariants (p0 p1 : Point) (r m : ℝ) :
    noEndPath (drawLineWurst p0 p1 r m).1 = true ∧
    ((drawLineWurst p0 p1 r m).2 = true →
      closeScan (drawLineWurst p0 p1 r m).1 (some false) = some false) := by
  rw [drawLineWurst]
  split
  · simp [noEndPath_nil, closeScan_nil]
  · rcases h1 : splitLineAt p0 p1 (r + m) with _ | q0
    · simp [h1, noEndPath_nil, closeScan_nil]
    rcases h2 : splitLineAt p1 q0 r with _ | q1
    · simp [h1, h2, noEndPath_nil, closeScan_nil]
    simp only [h1, h2]
    constructor
    · simp [noEndPath_cons, noEndPath_append, noEndPath_nil, noEndPath_cap,
        noEndPath_lineSide, isEndPathOp]
    · intro _
      simp [closeScan_cons, closeScan_append, closeScan_nil, closeScan_cap,
        closeScan_lineSide, closeStep]

theorem drawCurveWurst_invariants (p0 p1 p2 p3 : Point) (r m : ℝ) :
    noEndPath (drawCurveWurst p0 p1 p2 p3 r m).1 = true ∧
    ((drawCurveWurst p0 p1 p2 p3 r m).2 = true →
      closeScan (drawCurveWurst p0 p1 p2 p3 r m).1 (some false) =
        some false) := by
  rw [drawCurveWurst]
  split
  · simp [noEndPath_nil, closeScan_nil]
  split
  · simp [noEndPath_nil, closeScan_nil]
  rcases h1 : splitCubicAtLength p0 p1 p2 p3 (r + m) with _ | s1
  · simp [h1, noEndPath_nil, closeScan_nil]
  rcases h2 : splitCubicAtLength p3 p2 p1 p0 r with _ | s2
  · simp [h1, h2, noEndPath_nil, closeScan_nil]
  simp only [h1, h2]
  rcases h3 : drawWurstCurveSide _ _ _ _ _ _ _ r with _ | side1
  · simp only [h3]
    constructor
    · simp [noEndPath_cons, noEndPath_append, noEndPath_nil, noEndPath_cap,
        isEndPathOp]
    · intro hfalse
      exact absurd hfalse (by simp)
  rcases h4 : drawWurstCurveSide _ _ _ _ _ _ _ r with _ | side2
  · simp only [h3, h4]
    constructor
    · simp [noEndPath_cons, noEndPath_append, noEndPath_nil, noEndPath_cap,
        isEndPathOp, (curveSide_invariants _ _ _ _ _ _ _ _ _ h3).1]
    · intro hfalse
      exact absurd hfalse (by simp)
  simp only [h3, h4]
  constructor
  · simp [noEndPath_cons, noEndPath_append, noEndPath_nil, noEndPath_cap,
      isEndPathOp, (curveSide_invariants _ _ _ _ _ _ _ _ _ h3).1,
      (curveSide_invariants _ _ _ _ _ _ _ _ _ h4).1]
  · intro _
    simp [closeScan_cons, closeScan_append, closeScan_nil, closeScan_cap,
      closeStep, (curveSide_invariants _ _ _ _ _ _ _ _ _ h3).2,
      (curveSide_invariants _ _ _ _ _ _ _ _ _ h4).2]

theorem lineToCore_invariants (r : ℝ) (st : PenState) (pt1 : Point) :
    noEndPath (lineToCore r st pt1).2 = true ∧
    ((lineToCore r st pt1).1.isSome = true →
      closeScan (lineToCore r st pt1).2 (some false) = some false) := by
  obtain ⟨cur, first, prev⟩ := st
  rcases first with _ | fp
  · simp [lineToCore, noEndPath_nil, closeScan_nil]
  rcases cur with _ | pt0
  · simp [lineToCore, noEndPath_nil, closeScan_nil]
  simp only [lineToCore]
  rcases hm : calcWurstMargin prev r pt0 pt1 with _ | margin
  · simp only [hm]
    constructor
    · split <;> simp [noEndPath_knot, noEndPath_nil]
    · intro hfalse
      exact absurd hfalse (by simp)
  simp only [hm]
  have hstroke := drawLineWurst_invariants pt0 pt1 r margin
  have hknot : noEndPath (if prev = none then drawWurstKnot pt0 pt1 r
      else []) = true ∧
      closeScan (if prev = none then drawWurstKnot pt0 pt1 r else [])
        (some false) = some false := by
    split <;> simp [noEndPath_knot, closeScan_knot, noEndPath_nil,
      closeScan_nil]
  split
  · rename_i hok
    constructor
    · simp [noEndPath_append, hknot.1, hstroke.1]
    · intro _
      rw [closeScan_append, hknot.2]
      exact hstroke.2 hok
  · constructor
    · simp [noEndPath_append, hknot.1, hstroke.1]
    · intro hfalse
      exact absurd hfalse (by simp)

theorem curveToCore_invariants (r : ℝ) (st : PenState)
    (pt1 pt2 pt3 : Point) :
    noEndPath (curveToCore r st pt1 pt2 pt3).2 = true ∧
    ((curveToCore r st pt1 pt2 pt3).1.isSome = true →
      closeScan (curveToCore r st pt1 pt2 pt3).2 (some false) =
        some false) := by
  obtain ⟨cur, first, prev⟩ := st
  rcases first with _ | fp
  · simp [curveToCore, noEndPath_nil, closeScan_nil]
  rcases cur with _ | pt0
  · simp [curveToCore, noEndPath_nil, closeScan_nil]
  simp only [curveToCore]
  rcases hm : calcWurstMargin prev r pt0 pt1 with _ | margin
  · simp only [hm]
    constructor
    · split <;> simp [noEndPath_knot, noEndPath_nil]
    · intro hfalse
      exact absurd hfalse (by simp)
  simp only [hm]
  have hstroke := drawCurveWurst_invariants pt0 pt1 pt2 pt3 r margin
  have hknot : noEndPath (if prev = none then drawWurstKnot pt0 pt1 r
      else []) = true ∧
      closeScan (if prev = none then drawWurstKnot pt0 pt1 r else [])
        (some false) = some false := by
    split <;> simp [noEndPath_knot, closeScan_knot, noEndPath_nil,
      closeScan_nil]
  split
  · rename_i hok
    constructor
    · simp [noEndPath_append, hknot.1, hstroke.1]
    · intro _
      rw [closeScan_append, hknot.2]
      exact hstroke.2 hok
  · constructor
    · simp [noEndPath_append, hknot.1, hstroke.1]
    · intro hfalse
      exact absurd hfalse (by simp)

theorem penStep_invariants (r : ℝ) (st : PenState) (op : OutlineOp) :
    noEndPath (penStep r st op).2 = true ∧
    ((penStep r st op).1.isSome = true →
      closeScan (penStep r st op).2 (some false) = some false) := by
  cases op with
  | moveTo p =>
    simp [penStep, moveToCore, noEndPath_nil, closeScan_nil]
  | lineTo p =>
    exact lineToCore_invariants r st p
  | curveTo c1 c2 p =>
    exact curveToCore_invariants r st c1 c2 p
  | closePath =>
    simp only [penStep, closePathCore]
    rcases hf : st.firstPoint with _ | fp
    · simp [noEndPath_nil, closeScan_nil]
    simp only
    split
    · have h := lineToCore_invariants r st fp
      constructor
      · exact h.1
      · intro hok
        apply h.2
        rcases hq : (lineToCore r st fp).1 with _ | st1
        · rw [hq] at hok
          simp at hok
        · simp [hq]
    · simp [noEndPath_nil, closeScan_nil]
  | endPath =>
    simp only [penStep, endPathCore]
    rcases hf : st.firstPoint with _ | fp
    · simp [noEndPath_nil, closeScan_nil]
    simp only
    rcases hp : st.prevPoint with _ | pp
    · simp [noEndPath_nil, closeScan_nil]
    rcases hc : st.currentPoint with _ | c
    · simp [noEndPath_nil, closeScan_nil]
    · simp [noEndPath_knot, closeScan_knot]

theorem penRun_invariants (r : ℝ) (ops : List OutlineOp) :
    ∀ st : PenState,
      noEndPath (penRun r st ops).2 = true ∧
      ((penRun r st ops).1.isSome = true →
        closeScan (penRun r st ops).2 (some false) = some false) := by
  induction ops with
  | nil =>
    intro st
    simp [penRun, noEndPath_nil, closeScan_nil]
  | cons op rest ih =>
    intro st
    have hstep := penStep_invariants r st op
    rw [penRun]
    rcases hs : penStep r st op with ⟨st1, ops1⟩
    rcases st1 with _ | st1
    · rw [hs] at hstep
      constructor
      · exact hstep.1
      · intro hfalse
        exact absurd hfalse (by simp)
    · rw [hs] at hstep
      simp only
      constructor
      · simp [noEndPath_append, hstep.1, (ih st1).1]
      · intro hok
        rw [closeScan_append, hstep.2 (by simp)]
        exact (ih st1).2 hok

/-- C8 (corrected): the emitted operation sequence never contains
`EndPath` for every input outline; on every traversal that completes
without raising, every emitted contour is closed (each `MoveTo` is
followed by a `ClosePath` before any further `MoveTo`).  A traversal
aborted mid-contour by the degenerate-curve division by zero can leave
its final contour unclosed. -/
theorem c8_no_endpath_and_closed (ops : List OutlineOp) (radius : ℝ) :
    noEndPath (drawWurst ops radius).1 = true ∧
    ((drawWurst ops radius).2 = true →
      closedContours (drawWurst ops radius).1) := by
  exact penRun_invariants radius ops
    { currentPoint := none, firstPoint := none, prevPoint := none }

theorem c8_witness :
    noEndPath (drawWurst [] 1).1 = true ∧
    closedContours (drawWurst [] 1).1 := by
  have h := c8_no_endpath_and_closed [] 1
  exact ⟨h.1, h.2 (by simp [drawWurst, penRun])⟩

/-- C8 counterexample: the curve `(0,0)-(2,0)-(6,0)-(8,0)` with radius 3
has both trim parameters equal to `1/2`, so the kept middle sub-curve
degenerates to a point, `cdistance = 0`, and the offset-side division
raises after the `moveTo` and the first cap were already emitted: the
traversal leaves its final contour unclosed. -/
theorem c8_counterexample :
    ¬ closedContours (drawWurst [OutlineOp.moveTo (0, 0),
        OutlineOp.curveTo (2, 0) (6, 0) (8, 0)] 3).1 := by
  have hd8 : distance ((0 : ℝ), (0 : ℝ)) ((8 : ℝ), (0 : ℝ)) = 8 :=
    distance_eval (by norm_num) (by norm_num)
  have h36 : Real.sqrt 36 = 6 := by
    rw [show (36 : ℝ) = 6 ^ 2 from by norm_num]
    exact Real.sqrt_sq (by norm_num)
  have hp1 : ¬(((0 : ℝ), (0 : ℝ)) = ((2 : ℝ), (0 : ℝ)) ∨
      ((6 : ℝ), (0 : ℝ)) = ((8 : ℝ), (0 : ℝ))) := by
    norm_num [Prod.ext_iff]
  have hs1 : splitCubicAtLength (0, 0) (2, 0) (6, 0) (8, 0)
      ((3 : ℝ) + 0) = some (1 / 2) := by
    simp only [splitCubicAtLength, calcCubicParameters, pAdd, pSub, pScale]
    norm_num [h36]
  have hs2 : splitCubicAtLength (8, 0) (6, 0) (2, 0) (0, 0)
      (3 : ℝ) = some (1 / 2) := by
    simp only [splitCubicAtLength, calcCubicParameters, pAdd, pSub, pScale]
    norm_num [h36]
  have hmid : splitCubicMiddle (0, 0) (2, 0) (6, 0) (8, 0) (1 / 2)
      (1 - 1 / 2) = ((4, 0), (4, 0), (4, 0), (4, 0)) := by
    simp only [splitCubicMiddle, calcCubicParameters, calcCubicPoints,
      pAdd, pSub, pScale]
    norm_num
  have hz4 : distance ((4 : ℝ), (0 : ℝ)) ((4 : ℝ), (0 : ℝ)) = 0 :=
    distance_eval le_rfl (by norm_num)
  have hside : ∀ m1 m2 : Point,
      drawWurstCurveSide (4, 0) (4, 0) (4, 0) (4, 0) m1 m2 0 3 = none := by
    intro m1 m2
    simp [drawWurstCurveSide]
  have hcw : ∃ x rest,
      drawCurveWurst ((0 : ℝ), (0 : ℝ)) (2, 0) (6, 0) (8, 0) 3 0 =
        (SinkOp.moveTo x :: rest, false) ∧
      closeScan (SinkOp.moveTo x :: rest) (some false) = some true := by
    rw [drawCurveWurst, if_neg (by rw [hd8]; norm_num), if_neg hp1]
    simp only [hs1, hs2]
    rw [hmid]
    simp only [hz4, hside]
    refine ⟨_, _, rfl, ?_⟩
    simp [closeScan_cons, closeStep, closeScan_cap]
  obtain ⟨x, rest, hcw, hclose⟩ := hcw
  intro hcl
  have hrun : (drawWurst [OutlineOp.moveTo (0, 0),
      OutlineOp.curveTo (2, 0) (6, 0) (8, 0)] 3).1 =
      drawWurstKnot (0, 0) (2, 0) 3 ++ (SinkOp.moveTo x :: rest) := by
    simp only [drawWurst, penRun, penStep, moveToCore, curveToCore,
      calcWurstMargin, hcw]
    simp
  rw [closedContours, hrun, closeScan_append, closeScan_knot, hclose] at hcl
  exact absurd hcl (by simp)

/-- The outline of the C2 scenario: an open two-point line of length 200. -/
noncomputable def c2ops : List OutlineOp :=
  [OutlineOp.moveTo (0, 0), OutlineOp.lineTo (200, 0), OutlineOp.endPath]

/-- The knot emitted at the start of the first segment of the C2 outline. -/
noncomputable def c2knot1 : List SinkOp :=
  [SinkOp.moveTo (0, -6.25), SinkOp.lineTo (-31.25, -15.625),
   SinkOp.lineTo (-31.25, 15.625), SinkOp.lineTo (0, 6.25),
   SinkOp.closePath]

/-- The capsule contour emitted for the C2 segment: trimmed axis from
`(50,0)` to `(150,0)`, straight sides at `y = -50` and `y = 50`. -/
noncomputable def c2capsule : List SinkOp :=
  [SinkOp.moveTo (50, -50),
   SinkOp.curveTo (50 - 62.5 * KAPPA, -50) (-12.5, -(62.5 * KAPPA))
     (-12.5, 0),
   SinkOp.curveTo (-12.5, 62.5 * KAPPA) (50 - 62.5 * KAPPA, 50) (50, 50),
   SinkOp.lineTo (150, 50),
   SinkOp.curveTo (150 + 62.5 * KAPPA, 50) (212.5, 62.5 * KAPPA) (212.5, 0),
   SinkOp.curveTo (212.5, -(62.5 * KAPPA)) (150 + 62.5 * KAPPA, -50)
     (150, -50),
   SinkOp.closePath]

/-- The knot emitted at the unterminated end of the C2 outline. -/
noncomputable def c2knot2 : List SinkOp :=
  [SinkOp.moveTo (200, 6.25), SinkOp.lineTo (231.25, 15.625),
   SinkOp.lineTo (231.25, -15.625), SinkOp.lineTo (200, -6.25),
   SinkOp.closePath]

theorem c2knot1_eval : drawWurstKnot ((0 : ℝ), (0 : ℝ)) (200, 0) 50 =
    c2knot1 := by
  have h : Real.sqrt 40000 = 200 := by
    rw [show (40000 : ℝ) = 200 ^ 2 from by norm_num]
    exact Real.sqrt_sq (by norm_num)
  norm_num [drawWurstKnot, c2knot1, slope, normalise, offsetPoint,
    CURVE_CORRECTION, h]

theorem c2knot2_eval : drawWurstKnot ((200 : ℝ), (0 : ℝ)) (0, 0) 50 =
    c2knot2 := by
  have h : Real.sqrt 40000 = 200 := by
    rw [show (40000 : ℝ) = 200 ^ 2 from by norm_num]
    exact Real.sqrt_sq (by norm_num)
  norm_num [drawWurstKnot, c2knot2, slope, normalise, offsetPoint,
    CURVE_CORRECTION, h]

theorem c2capsule_eval : drawLineWurst ((0 : ℝ), (0 : ℝ)) (200, 0) 50 0 =
    (c2capsule, true) := by
  have h200 : distance ((0 : ℝ), (0 : ℝ)) ((200 : ℝ), (0 : ℝ)) = 200 :=
    distance_eval (by norm_num) (by norm_num)
  have h150 : distance ((200 : ℝ), (0 : ℝ)) ((50 : ℝ), (0 : ℝ)) = 150 :=
    distance_eval (by norm_num) (by norm_num)
  have h100 : Real.sqrt 10000 = 100 := by
    rw [show (10000 : ℝ) = 100 ^ 2 from by norm_num]
    exact Real.sqrt_sq (by norm_num)
  have hq0 : splitLineAt ((0 : ℝ), (0 : ℝ)) (200, 0) ((50 : ℝ) + 0) =
      some (50, 0) := by
    simp only [splitLineAt, h200]
    norm_num
  have hq1 : splitLineAt ((200 : ℝ), (0 : ℝ)) (50, 0) 50 =
      some (150, 0) := by
    simp only [splitLineAt, h150]
    norm_num
  rw [drawLineWurst, if_neg (by rw [h200]; norm_num)]
  simp only [hq0, hq1]
  norm_num [c2capsule, drawWurstCap, drawWurstLineSide, arcControlPoints,
    arcControlPoint, offsetPoint, slope, normalise, CURVE_CORRECTION, h100]
  ring_nf

theorem c2run_eval : drawWurst c2ops 50 =
    (c2knot1 ++ (c2capsule ++ c2knot2), true) := by
  simp only [c2ops, drawWurst, penRun, penStep, moveToCore, lineToCore,
    endPathCore, calcWurstMargin, c2knot1_eval, c2capsule_eval,
    c2knot2_eval]
  simp [-Prod.mk_zero_zero, c2knot2_eval]

/-- C2 (corrected): the open line outline of length 200 with radius 50
produces **two** knot contours (one at the subpath start, one at the
unterminated end) and one capsule contour; the capsule's straight sides
run from `(50,50)` to `(150,50)` and from `(150,-50)` to `(50,-50)` —
each `200 - 2*50 = 100` units long — and lie `2*50 = 100` units apart. -/
theorem c2_line_outline_trace :
    drawWurst c2ops 50 = (c2knot1 ++ (c2capsule ++ c2knot2), true) ∧
    (knotContours (drawWurst c2ops 50).1).length = 2 ∧
    (capsuleContours (drawWurst c2ops 50).1).length = 1 ∧
    distance (50, 50) (150, 50) = 100 ∧
    distance (150, -50) (50, -50) = 100 ∧
    distance (50, -50) (50, 50) = 100 ∧
    distance (150, 50) (150, -50) = 100 := by
  refine ⟨c2run_eval, ?_, ?_, ?_, ?_, ?_, ?_⟩
  · rw [c2run_eval]
    simp [knotContours, capsuleContours, contoursOf, contourSplit,
      isCapsuleContour, isCurveOp, c2knot1, c2capsule, c2knot2]
  · rw [c2run_eval]
    simp [knotContours, capsuleContours, contoursOf, contourSplit,
      isCapsuleContour, isCurveOp, c2knot1, c2capsule, c2knot2]
  · exact distance_eval (by norm_num) (by norm_num)
  · exact distance_eval (by norm_num) (by norm_num)
  · exact distance_eval (by norm_num) (by norm_num)
  · exact distance_eval (by norm_num) (by norm_num)

/-- C2 counterexample: the traversal emits two knot contours, not
exactly one. -/
theorem c2_counterexample :
    (knotContours (drawWurst c2ops 50).1).length ≠ 1 := by
  rw [c2run_eval]
  simp [knotContours, capsuleContours, contoursOf, contourSplit,
    isCapsuleContour, isCurveOp, c2knot1, c2capsule, c2knot2]

end Wurst
